import Mathlib

/-!
Verification development for the XXT-AGENT streaming fusion pipeline.

Shallow embedding of the services under `src/services/`:
* `quote-normalizer` — candle aggregation (`redis_candles.py` Lua script,
  `main.py` `handle_pubsub` / `handle_flush`);
* `event-fusion-engine` — evidence buffer (`redis_store.py`) and
  candle fusion (`main.py` `handle_pubsub`, `compute_severity`);
* `alert-engine` — threshold / cooldown gate (`main.py` `handle_pubsub`);
* `trade-planner-worker` — analysis responder (`main.py` `handle_analyze`,
  `build_fallback`).

Python floats are modelled as rationals, Python ints as `Int`/`Nat`,
fallible remote calls as `Except`/`Option`, and per-request handlers as
explicit state-passing functions.
-/

namespace XXT

/-! ## Candle aggregation (quote-normalizer) -/

/-- A trade as seen by the aggregator after validation
(`models.QuoteTradeEvent`): price, volume, millisecond timestamp. -/
structure Trade where
  price : ℚ
  volume : ℚ
  ts_ms : ℤ
  deriving DecidableEq, Repr

/-- The mutable Redis hash `candle:1m:{symbol}:{minute}`
(fields written by `LUA_UPSERT_CANDLE`). -/
structure OpenCandle where
  open_ : ℚ
  high : ℚ
  low : ℚ
  close : ℚ
  volume : ℚ
  last_update_ms : ℤ
  deriving DecidableEq, Repr

/-- `redis_candles.LUA_UPSERT_CANDLE`: if the key does not exist, create the
hash with o=h=l=c=price and volume=vol; otherwise raise `high` when
`price > high`, lower `low` when `price < low`, set `close`, add the volume,
and set `last_update_ms`. -/
def upsertCandle (st : Option OpenCandle) (price vol : ℚ) (ts : ℤ) : OpenCandle :=
  match st with
  | none =>
      { open_ := price, high := price, low := price, close := price
        volume := vol, last_update_ms := ts }
  | some c =>
      { open_ := c.open_
        high := if price > c.high then price else c.high
        low := if price < c.low then price else c.low
        close := price
        volume := c.volume + vol
        last_update_ms := ts }

/-- `main.minute_bucket_ms`: `(ts_ms // 60000) * 60000` with Python floor
division. -/
def minute_bucket_ms (ts : ℤ) : ℤ :=
  (Int.fdiv ts 60000) * 60000

/-- Applying a whole sequence of trades (in arrival order) to an initially
absent candle key, one `LUA_UPSERT_CANDLE` call per trade. -/
def applyTrades (trades : List Trade) : Option OpenCandle :=
  trades.foldl (fun st t => some (upsertCandle st t.price t.volume t.ts_ms)) none

/-- Folding trades into an existing candle hash. -/
def foldCandle (c : OpenCandle) (trades : List Trade) : OpenCandle :=
  trades.foldl (fun acc t => upsertCandle (some acc) t.price t.volume t.ts_ms) c

/-! ## Trade ingest handler (quote-normalizer `main.handle_pubsub`) -/

/-- A validated incoming trade event (`models.QuoteTradeEvent` after
`model_validate` succeeded and `event_type == "trade"`). -/
structure QuoteTradeEvent where
  instrument_symbol : String
  price : ℚ
  volume : ℚ
  ts_ms : ℤ
  deriving DecidableEq, Repr

/-- The aggregator's Redis state: one optional candle hash per
`(symbol, minute_bucket_ms)` key. -/
abbrev CandleState := String × ℤ → Option OpenCandle

/-- The trade branch of quote-normalizer `main.handle_pubsub`: compute the
minute bucket, run `LUA_UPSERT_CANDLE` on the corresponding key, and answer
HTTP 204. There is no check on `ts_ms`. -/
def handle_pubsub_trade (st : CandleState) (ev : QuoteTradeEvent) :
    CandleState × ℕ :=
  let m := minute_bucket_ms ev.ts_ms
  (fun k =>
      if k = (ev.instrument_symbol, m) then
        some (upsertCandle (st k) ev.price ev.volume ev.ts_ms)
      else st k,
    204)

/-! ## Evidence buffer (event-fusion-engine `redis_store.FusionStore`) -/

/-- Redis `LPUSH`: prepend one element. -/
def lpush (l : List String) (x : String) : List String := x :: l

/-- Redis `LTRIM key start stop`: keep exactly the elements whose indexes
lie in the inclusive range `[start, stop]`. -/
def ltrim (l : List String) (start stop : ℕ) : List String :=
  (l.drop start).take (stop + 1 - start)

/-- `FusionStore.add_news` / `add_social` pipeline body on the stored list:
`LPUSH` the payload, then `LTRIM key 0 50` (the `EXPIRE` call does not
change the list contents). -/
def fusion_append (l : List String) (payload : String) : List String :=
  ltrim (lpush l payload) 0 50

/-- A stored evidence item once decoded (`orjson.loads`); only the fields
the store logic reads. -/
structure EvidenceItem where
  headline : String
  ts_unix : ℤ
  deriving DecidableEq, Repr

/-- `FusionStore.get_recent_news` / `get_recent_social` filter over decoded
items: `LRANGE key 0 50` (up to 51 raw entries), skip entries that fail to
decode (`none`), keep an item iff `ts_unix` is non-zero and
`now − ts ≤ lookback`. `ts_of` reads the item's `ts_unix` field. -/
def fusion_recent {α : Type} (ts_of : α → ℤ) (raw : List (Option α))
    (now lookback : ℤ) : List α :=
  ((raw.take 51).filterMap id).filter
    (fun it => (!(ts_of it == 0)) && decide (now - ts_of it ≤ lookback))

/-- `FusionStore.add_news` as the caller observes it: the pipeline is not
wrapped in any exception handler, so when the KV store is unavailable the
Redis client error propagates; otherwise the stored list is rewritten. -/
def add_news_call (kvAvailable : Bool) (l : List String) (payload : String) :
    Except Unit (List String) :=
  if kvAvailable then .ok (fusion_append l payload) else .error ()

/-- `FusionStore.get_recent_news` as the caller observes it: `LRANGE` is not
wrapped in any exception handler, so a KV outage propagates; the only
swallowed failures are per-item decode errors. -/
def get_recent_news_call (kvAvailable : Bool)
    (raw : List (Option EvidenceItem)) (now lookback : ℤ) :
    Except Unit (List EvidenceItem) :=
  if kvAvailable then .ok (fusion_recent EvidenceItem.ts_unix raw now lookback)
  else .error ()

/-- Modelled from the spec (§4.1 failure semantics), for comparison with
`add_news_call`: "KV unavailable → `append` is a best-effort no-op that is
logged but never surfaces as an error to the caller". -/
def add_news_spec (kvAvailable : Bool) (l : List String) (payload : String) :
    Except Unit (List String) :=
  if kvAvailable then .ok (fusion_append l payload) else .ok l

/-- Modelled from the spec (§4.1 failure semantics), for comparison with
`get_recent_news_call`: "KV unavailable → `recent` returns an empty list". -/
def get_recent_news_spec (kvAvailable : Bool)
    (raw : List (Option EvidenceItem)) (now lookback : ℤ) :
    Except Unit (List EvidenceItem) :=
  if kvAvailable then .ok (fusion_recent EvidenceItem.ts_unix raw now lookback)
  else .ok []

/-! ## Severity (event-fusion-engine `main.compute_severity`) -/

/-- `main.compute_severity`: Python `int()` on the non-negative product
`abs(pct) * 15` truncates, i.e. takes the floor. -/
def compute_severity (pct : ℚ) (news_count social_count : ℕ) : ℤ :=
  min 100 (min 100 ⌊|pct| * 15⌋
    + min 50 ((news_count : ℤ) * 8) + min 30 ((social_count : ℤ) * 5))

/-- Modelled from the spec (§4.4 step 5), for comparison with
`compute_severity`: `clamp(0, 100, round(15·|change_pct|)
+ min(50, 8·news_count) + min(30, 5·social_count))`. -/
def severity_spec (pct : ℚ) (news_count social_count : ℕ) : ℤ :=
  max 0 (min 100 (round (|pct| * 15)
    + min 50 ((news_count : ℤ) * 8) + min 30 ((social_count : ℤ) * 5)))

/-! ## Candle finalizer (quote-normalizer `main.handle_flush`) -/

/-- The three remote effects the finalizer runs for one finalizable candle. -/
inductive FlushAction where
  | sqlUpsert
  | busPublish
  | deleteKey
  deriving DecidableEq, Repr

/-- One finalizable candle inside the `handle_flush` loop, given whether the
SQL upsert and the bus publish succeed: the SQL upsert is attempted first;
on its failure the loop `continue`s (no publish, no delete, key left in
place); otherwise the publish is attempted (a publish failure is only
logged) and then the key is deleted unconditionally. `trace` lists the
remote calls attempted, in program order. -/
def handle_flush_candle (sqlOk pubOk : Bool) :
    List (FlushAction × Bool) × Bool :=
  if sqlOk then
    ([(.sqlUpsert, true), (.busPublish, pubOk), (.deleteKey, true)], true)
  else
    ([(.sqlUpsert, false)], false)

/-! ## Candle fusion (event-fusion-engine `main.handle_pubsub`, candle branch) -/

/-- `main.candle_change_pct`: `(close − open)/open × 100`, 0 when
`open ≤ 0`. -/
def candle_change_pct (open_ close : ℚ) : ℚ :=
  if open_ ≤ 0 then 0 else (close - open_) / open_ * 100

/-- A decoded social signal; only the fields the fusion logic reads. -/
structure SocialItem where
  title : String
  ts_unix : ℤ
  deriving DecidableEq, Repr

/-- The fused-event record built in the candle branch (the fields of the
`fused` dict; the 3-decimal rounding of the displayed `change_pct_1m`
string is not modelled). -/
structure FusedEvent where
  symbol : String
  minute_ts_ms : ℤ
  price_open : ℚ
  price_high : ℚ
  price_low : ℚ
  price_close : ℚ
  price_volume : ℚ
  severity : ℤ
  direction : String
  news_count : ℕ
  news_headlines : List String
  social_count : ℕ
  social_top_signals : List String
  news_items : List EvidenceItem
  social_signals : List SocialItem
  deriving DecidableEq, Repr

/-- Construction of the `fused` dict from the recent-news and recent-social
query results: `fusion_context.news.headlines` takes `recent_news[:5]`,
`fusion_context.social.top_signals` takes `recent_social[:3]`, and the
`evidence` block takes `recent_news[:3]` and `recent_social[:3]`. -/
def build_fused (symbol : String) (o h l c v : ℚ) (m : ℤ)
    (recent_news : List EvidenceItem) (recent_social : List SocialItem) :
    FusedEvent :=
  { symbol := symbol
    minute_ts_ms := m
    price_open := o, price_high := h, price_low := l, price_close := c
    price_volume := v
    severity := compute_severity (candle_change_pct o c)
      recent_news.length recent_social.length
    direction := if candle_change_pct o c > 0 then "positive" else "negative"
    news_count := recent_news.length
    news_headlines := (recent_news.take 5).map EvidenceItem.headline
    social_count := recent_social.length
    social_top_signals := (recent_social.take 3).map SocialItem.title
    news_items := recent_news.take 3
    social_signals := recent_social.take 3 }

/-- The fusion engine's Redis state: the latest-close hash
`fusion:latest_close:{symbol}` and the raw evidence lists
`fusion:news:{symbol}` / `fusion:social:{symbol}`. -/
structure FusionState where
  latest_close : String → Option (ℚ × ℤ)
  news : String → List (Option EvidenceItem)
  social : String → List (Option SocialItem)

/-- The `candle_1m` branch of fusion `main.handle_pubsub`:
`set_latest_close` always runs first; then, if `|change_pct| < 0.25`
(hard-coded threshold), the request returns with nothing published;
otherwise the recent news and social are queried and one fused event is
published. Returns the new state and the list of published events. -/
def handle_pubsub_candle (st : FusionState) (symbol : String)
    (o h l c v : ℚ) (m now news_lookback social_lookback : ℤ) :
    FusionState × List FusedEvent :=
  let st1 : FusionState :=
    { st with latest_close :=
        fun s => if s = symbol then some (c, m) else st.latest_close s }
  if |candle_change_pct o c| < 1/4 then (st1, [])
  else
    (st1, [build_fused symbol o h l c v m
      (fusion_recent EvidenceItem.ts_unix (st.news symbol) now news_lookback)
      (fusion_recent SocialItem.ts_unix (st.social symbol) now social_lookback)])

/-! ## Alert gate (alert-engine `main.handle_pubsub`) -/

/-- The `candle_1m` branch of alert-engine `main.handle_pubsub` on a
validated event: return if `abs(pct) < min_change_pct_to_alert`; return if
the `(candle_1m, symbol)` cooldown key is set; otherwise send on both
channels and set the cooldown iff `telegram_sent or line_sent`. The first
component is whether the push channels were invoked, the second whether a
cooldown was set. -/
def candle_alert_branch (pct min_change_pct_to_alert : ℚ)
    (cooldownActive telegram_sent line_sent : Bool) : Bool × Bool :=
  if |pct| < min_change_pct_to_alert then (false, false)
  else if cooldownActive then (false, false)
  else (true, telegram_sent || line_sent)

/-- The `fused_event` branch of alert-engine `main.handle_pubsub`: return if
`severity < min_fused_severity_to_alert`; return if the
`(fused_event, symbol)` cooldown key is set; otherwise send on both
channels and set the cooldown iff `telegram_sent or line_sent`. -/
def fused_alert_branch (severity min_fused_severity_to_alert : ℤ)
    (cooldownActive telegram_sent line_sent : Bool) : Bool × Bool :=
  if severity < min_fused_severity_to_alert then (false, false)
  else if cooldownActive then (false, false)
  else (true, telegram_sent || line_sent)

/-! ## Analysis responder (trade-planner-worker `main.handle_analyze`) -/

/-- A trade-plan document; only the fields the contract claims constrain. -/
structure PlanDoc where
  action : String
  base_prob : ℤ
  bull_prob : ℤ
  bear_prob : ℤ
  invalidation_rules : List String
  disclosures : List String
  deriving DecidableEq, Repr

/-- `main.build_fallback`, restricted to the modelled fields: action WATCH,
scenario probabilities 55/25/20, two invalidation rules, two disclosures. -/
def build_fallback_doc : PlanDoc :=
  { action := "WATCH"
    base_prob := 55, bull_prob := 25, bear_prob := 20
    invalidation_rules :=
      ["If price breaks below support with rising volume.",
       "If major negative news breaks."]
    disclosures :=
      ["This is informational decision support, not financial advice.",
       "High volatility can cause rapid losses."] }

/-- Modelled from the spec: the contract-schema conformance check of §4.6
(scenario probabilities summing to 100, at least 2 invalidation rules).
The repository states the schema only as prompt text
(`skill_contract.TRADE_PLANNER_CONTRACT`); no validation code exists. -/
def conforms_to_contract_spec (d : PlanDoc) : Bool :=
  (d.base_prob + d.bull_prob + d.bear_prob == 100)
    && decide (2 ≤ d.invalidation_rules.length)

/-- The oracle path of `main.handle_analyze`: with no API key configured the
fallback is returned; with a key, a successful `gemini.generate_json` call
(`some d`) is returned as-is — there is no validation of `d` — and any
raised error (`none`) yields the fallback. -/
def handle_analyze_result (gemini_configured : Bool)
    (oracle : Option PlanDoc) (fallback : PlanDoc) : PlanDoc :=
  if gemini_configured then
    match oracle with
    | some d => d
    | none => fallback
  else fallback

/-- Modelled from the spec (§4.6 step 5), for comparison with
`handle_analyze_result`: return the oracle document only when it conforms
to the contract schema, else the fallback. -/
def handle_analyze_spec (gemini_configured : Bool)
    (oracle : Option PlanDoc) (fallback : PlanDoc) : PlanDoc :=
  if gemini_configured then
    match oracle with
    | some d => if conforms_to_contract_spec d then d else fallback
    | none => fallback
  else fallback

lemma applyTrades_cons (t : Trade) (ts : List Trade) :
    applyTrades (t :: ts) =
      some (foldCandle (upsertCandle none t.price t.volume t.ts_ms) ts) := by
  suffices h : ∀ (l : List Trade) (c : OpenCandle),
      l.foldl (fun st t => some (upsertCandle st t.price t.volume t.ts_ms)) (some c)
        = some (foldCandle c l) by
    simpa [applyTrades] using h ts _
  intro l
  induction l with
  | nil => intro c; simp [foldCandle]
  | cons x xs ih => intro c; simpa [foldCandle, List.foldl_cons] using ih _

lemma foldCandle_open (c : OpenCandle) (ts : List Trade) :
    (foldCandle c ts).open_ = c.open_ := by
  induction ts generalizing c with
  | nil => rfl
  | cons x xs ih => simpa [foldCandle, List.foldl_cons, upsertCandle] using ih _

lemma foldCandle_volume (c : OpenCandle) (ts : List Trade) :
    (foldCandle c ts).volume = c.volume + (ts.map Trade.volume).sum := by
  induction ts generalizing c with
  | nil => simp [foldCandle]
  | cons x xs ih =>
      simp only [foldCandle, List.foldl_cons, List.map_cons, List.sum_cons] at *
      rw [ih]
      simp [upsertCandle]
      ring

lemma foldCandle_close (c : OpenCandle) (t : Trade) (ts : List Trade) :
    (foldCandle c (ts ++ [t])).close = t.price := by
  have : foldCandle c (ts ++ [t]) =
      upsertCandle (some (foldCandle c ts)) t.price t.volume t.ts_ms := by
    simp [foldCandle, List.foldl_append]
  rw [this]; rfl

lemma foldCandle_high_ge (c : OpenCandle) (ts : List Trade) :
    c.high ≤ (foldCandle c ts).high := by
  induction ts generalizing c with
  | nil => simp [foldCandle]
  | cons x xs ih =>
      have step : c.high ≤ (upsertCandle (some c) x.price x.volume x.ts_ms).high := by
        simp only [upsertCandle]
        split <;> simp_all [le_of_lt]
      calc c.high ≤ (upsertCandle (some c) x.price x.volume x.ts_ms).high := step
        _ ≤ (foldCandle (upsertCandle (some c) x.price x.volume x.ts_ms) xs).high := ih _
        _ = (foldCandle c (x :: xs)).high := by simp [foldCandle, List.foldl_cons]

lemma foldCandle_high_mem (c : OpenCandle) (ts : List Trade) :
    (foldCandle c ts).high = c.high ∨ (foldCandle c ts).high ∈ ts.map Trade.price := by
  induction ts generalizing c with
  | nil => left; rfl
  | cons x xs ih =>
      have hrec := ih (upsertCandle (some c) x.price x.volume x.ts_ms)
      have hfold : foldCandle c (x :: xs)
          = foldCandle (upsertCandle (some c) x.price x.volume x.ts_ms) xs := by
        simp [foldCandle, List.foldl_cons]
      rw [hfold]
      rcases hrec with h | h
      · rw [h]
        simp only [upsertCandle]
        by_cases hx : x.price > c.high
        · right; simp [hx]
        · left; simp [hx]
      · right; rw [List.map_cons]; exact List.mem_cons_of_mem _ h

lemma foldCandle_price_le_high (c : OpenCandle) (ts : List Trade) :
    ∀ t ∈ ts, t.price ≤ (foldCandle c ts).high := by
  induction ts generalizing c with
  | nil => intro t ht; cases ht
  | cons x xs ih =>
      intro t ht
      have hfold : foldCandle c (x :: xs)
          = foldCandle (upsertCandle (some c) x.price x.volume x.ts_ms) xs := by
        simp [foldCandle, List.foldl_cons]
      rcases List.mem_cons.mp ht with rfl | hmem
      · rw [hfold]
        have h1 : t.price ≤ (upsertCandle (some c) t.price t.volume t.ts_ms).high := by
          simp only [upsertCandle]
          split <;> simp_all [le_of_not_lt, not_lt]
        exact le_trans h1 (foldCandle_high_ge _ _)
      · rw [hfold]; exact ih _ t hmem

lemma foldCandle_low_le (c : OpenCandle) (ts : List Trade) :
    (foldCandle c ts).low ≤ c.low := by
  induction ts generalizing c with
  | nil => simp [foldCandle]
  | cons x xs ih =>
      have step : (upsertCandle (some c) x.price x.volume x.ts_ms).low ≤ c.low := by
        simp only [upsertCandle]
        split <;> simp_all [le_of_lt]
      calc (foldCandle c (x :: xs)).low
          = (foldCandle (upsertCandle (some c) x.price x.volume x.ts_ms) xs).low := by
            simp [foldCandle, List.foldl_cons]
        _ ≤ (upsertCandle (some c) x.price x.volume x.ts_ms).low := ih _
        _ ≤ c.low := step

lemma foldCandle_low_mem (c : OpenCandle) (ts : List Trade) :
    (foldCandle c ts).low = c.low ∨ (foldCandle c ts).low ∈ ts.map Trade.price := by
  induction ts generalizing c with
  | nil => left; rfl
  | cons x xs ih =>
      have hrec := ih (upsertCandle (some c) x.price x.volume x.ts_ms)
      have hfold : foldCandle c (x :: xs)
          = foldCandle (upsertCandle (some c) x.price x.volume x.ts_ms) xs := by
        simp [foldCandle, List.foldl_cons]
      rw [hfold]
      rcases hrec with h | h
      · rw [h]
        simp only [upsertCandle]
        by_cases hx : x.price < c.low
        · right; simp [hx]
        · left; simp [hx]
      · right; rw [List.map_cons]; exact List.mem_cons_of_mem _ h

lemma foldCandle_low_le_price (c : OpenCandle) (ts : List Trade) :
    ∀ t ∈ ts, (foldCandle c ts).low ≤ t.price := by
  induction ts generalizing c with
  | nil => intro t ht; cases ht
  | cons x xs ih =>
      intro t ht
      have hfold : foldCandle c (x :: xs)
          = foldCandle (upsertCandle (some c) x.price x.volume x.ts_ms) xs := by
        simp [foldCandle, List.foldl_cons]
      rcases List.mem_cons.mp ht with rfl | hmem
      · rw [hfold]
        have h1 : (upsertCandle (some c) t.price t.volume t.ts_ms).low ≤ t.price := by
          simp only [upsertCandle]
          split <;> simp_all [le_of_not_lt, not_lt]
        exact le_trans (foldCandle_low_le _ _) h1
      · rw [hfold]; exact ih _ t hmem

/-- C1: for every sequence of trades applied for a symbol within one minute
bucket, the resulting OpenCandle hash satisfies: `open` equals the price of
the first trade received, `close` the price of the last trade received,
`high` the maximum trade price, `low` the minimum trade price, and `volume`
the sum of the trade volumes; in particular `low ≤ open, close ≤ high`. -/
theorem C1_open_candle_ohlcv (t : Trade) (ts : List Trade) :
    ∃ c, applyTrades (t :: ts) = some c ∧
      c.open_ = t.price ∧
      c.close = ((t :: ts).getLast (List.cons_ne_nil t ts)).price ∧
      c.high ∈ (t :: ts).map Trade.price ∧ (∀ u ∈ t :: ts, u.price ≤ c.high) ∧
      c.low ∈ (t :: ts).map Trade.price ∧ (∀ u ∈ t :: ts, c.low ≤ u.price) ∧
      c.volume = ((t :: ts).map Trade.volume).sum ∧
      c.low ≤ c.open_ ∧ c.open_ ≤ c.high ∧
      c.low ≤ c.close ∧ c.close ≤ c.high := by
  have c0eq : upsertCandle none t.price t.volume t.ts_ms =
      { open_ := t.price, high := t.price, low := t.price, close := t.price
        volume := t.volume, last_update_ms := t.ts_ms } := rfl
  set c0 : OpenCandle :=
    { open_ := t.price, high := t.price, low := t.price, close := t.price
      volume := t.volume, last_update_ms := t.ts_ms } with hc0
  refine ⟨foldCandle c0 ts, by rw [applyTrades_cons, c0eq], ?_⟩
  have hopen : (foldCandle c0 ts).open_ = t.price := by
    rw [foldCandle_open]
  have hhigh_ge : t.price ≤ (foldCandle c0 ts).high := by
    have := foldCandle_high_ge c0 ts; simpa [hc0] using this
  have hlow_le : (foldCandle c0 ts).low ≤ t.price := by
    have := foldCandle_low_le c0 ts; simpa [hc0] using this
  have hhigh_mem : (foldCandle c0 ts).high ∈ (t :: ts).map Trade.price := by
    rcases foldCandle_high_mem c0 ts with h | h
    · rw [List.map_cons]; exact h ▸ List.mem_cons_self _ _
    · rw [List.map_cons]; exact List.mem_cons_of_mem _ h
  have hlow_mem : (foldCandle c0 ts).low ∈ (t :: ts).map Trade.price := by
    rcases foldCandle_low_mem c0 ts with h | h
    · rw [List.map_cons]; exact h ▸ List.mem_cons_self _ _
    · rw [List.map_cons]; exact List.mem_cons_of_mem _ h
  have hhigh_ub : ∀ u ∈ t :: ts, u.price ≤ (foldCandle c0 ts).high := by
    intro u hu
    rcases List.mem_cons.mp hu with rfl | hmem
    · exact hhigh_ge
    · exact foldCandle_price_le_high c0 ts u hmem
  have hlow_lb : ∀ u ∈ t :: ts, (foldCandle c0 ts).low ≤ u.price := by
    intro u hu
    rcases List.mem_cons.mp hu with rfl | hmem
    · exact hlow_le
    · exact foldCandle_low_le_price c0 ts u hmem
  have hvol : (foldCandle c0 ts).volume = ((t :: ts).map Trade.volume).sum := by
    rw [foldCandle_volume]; simp [hc0]
  have hclose : (foldCandle c0 ts).close
      = ((t :: ts).getLast (List.cons_ne_nil t ts)).price := by
    rcases List.eq_nil_or_concat ts with rfl | ⟨ts', u, rfl⟩
    · simp [foldCandle, hc0]
    · simp only [List.concat_eq_append]
      rw [foldCandle_close]
      have hlist : t :: (ts' ++ [u]) = (t :: ts') ++ [u] := rfl
      have : ((t :: ts') ++ [u]).getLast (by simp) = u := by
        simp [List.getLast_append]
      simp only [hlist]
      rw [this]
  have hclose_mem : (foldCandle c0 ts).close ∈ (t :: ts).map Trade.price := by
    rw [hclose]
    exact List.mem_map_of_mem Trade.price (List.getLast_mem _)
  have hclose_bounds :
      (foldCandle c0 ts).low ≤ (foldCandle c0 ts).close ∧
        (foldCandle c0 ts).close ≤ (foldCandle c0 ts).high := by
    rw [hclose]
    constructor
    · exact hlow_lb _ (List.getLast_mem _)
    · exact hhigh_ub _ (List.getLast_mem _)
  exact ⟨hopen, hclose, hhigh_mem, hhigh_ub, hlow_mem, hlow_lb, hvol,
    hopen ▸ hlow_le, hopen ▸ hhigh_ge, hclose_bounds.1, hclose_bounds.2⟩

/-! ## Theorems for claims C2, C3, C4, C8 -/

/-- C2 (code bug): `FusionStore.add_news` / `add_social` document "max 50
items", but `LTRIM key 0 50` keeps the inclusive index range `[0, 50]`,
i.e. 51 items.  Appending to a 50-item list yields a stored list of 51
items; in general the stored length after an append is
`min (previous + 1) 51`, so the buffer can exceed 50. -/
theorem C2_append_keeps_51_items :
    (fusion_append (List.replicate 50 "x") "y").length = 51 ∧
      ∀ (l : List String) (p : String),
        (fusion_append l p).length = min (l.length + 1) 51 := by
  constructor
  · simp [fusion_append, lpush, ltrim]
  · intro l p
    simp [fusion_append, lpush, ltrim]
    omega

/-- C3 counterexample: for `change_pct = 3/25 = 0.12` with no evidence,
`15·|change_pct| = 1.8`; the code's Python `int()` truncates to 1, while
the claimed `round` gives 2, so the computed severity differs from the
claimed formula. -/
theorem C3_counterexample_truncation :
    compute_severity (3/25) 0 0 = 1 ∧ severity_spec (3/25) 0 0 = 2 ∧
      compute_severity (3/25) 0 0 ≠ severity_spec (3/25) 0 0 := by
  have hf : (⌊|(3/25 : ℚ)| * 15⌋ : ℤ) = 1 := by
    rw [abs_of_nonneg (by norm_num)]; norm_num
  have hr : (round (|(3/25 : ℚ)| * 15) : ℤ) = 2 := by
    rw [abs_of_nonneg (by norm_num), round_eq]; norm_num
  refine ⟨?_, ?_, ?_⟩
  · simp [compute_severity, hf]
  · simp [severity_spec, hr]
  · simp [compute_severity, severity_spec, hf, hr]

/-- C3 amended: the computed severity equals
`clamp(0, 100, trunc(15·|change_pct|) + min(50, 8·news_count)
+ min(30, 5·social_count))` — truncation, not rounding — and always lies
in `[0, 100]`; it is a pure function of the three inputs. -/
theorem C3_severity_trunc_clamp (pct : ℚ) (news_count social_count : ℕ) :
    compute_severity pct news_count social_count
        = max 0 (min 100 (⌊|pct| * 15⌋
            + min 50 ((news_count : ℤ) * 8) + min 30 ((social_count : ℤ) * 5)))
      ∧ 0 ≤ compute_severity pct news_count social_count
      ∧ compute_severity pct news_count social_count ≤ 100 := by
  have hb : (0:ℤ) ≤ ⌊|pct| * 15⌋ := Int.floor_nonneg.mpr (by positivity)
  simp only [compute_severity]
  refine ⟨?_, ?_, ?_⟩ <;> omega

/-- C4: for each finalizable candle the finalizer attempts the SQL upsert,
the bus publish and the key deletion exactly in that order; on SQL failure
the key is left in place (only the upsert was attempted), and after a
successful upsert the key is deleted even when the publish fails. -/
theorem C4_flush_order (sqlOk pubOk : Bool) :
    (handle_flush_candle sqlOk pubOk).1.map Prod.fst
        <+: [FlushAction.sqlUpsert, FlushAction.busPublish, FlushAction.deleteKey]
      ∧ ((handle_flush_candle sqlOk pubOk).2 = true ↔ sqlOk = true)
      ∧ (sqlOk = true → (handle_flush_candle sqlOk pubOk).1.map Prod.fst
          = [FlushAction.sqlUpsert, FlushAction.busPublish, FlushAction.deleteKey])
      ∧ (sqlOk = false → (handle_flush_candle sqlOk pubOk).1.map Prod.fst
          = [FlushAction.sqlUpsert] ∧ (handle_flush_candle sqlOk pubOk).2 = false) := by
  cases sqlOk <;>
    simp [handle_flush_candle, List.prefix_iff_eq_take]

/-- C4 witness: with a successful upsert and a failed publish the trace is
still upsert → publish → delete and the key is deleted. -/
theorem C4_flush_order_witness :
    (handle_flush_candle true false).1.map Prod.fst
        <+: [FlushAction.sqlUpsert, FlushAction.busPublish, FlushAction.deleteKey]
      ∧ ((handle_flush_candle true false).2 = true ↔ true = true)
      ∧ (true = true → (handle_flush_candle true false).1.map Prod.fst
          = [FlushAction.sqlUpsert, FlushAction.busPublish, FlushAction.deleteKey])
      ∧ (true = false → (handle_flush_candle true false).1.map Prod.fst
          = [FlushAction.sqlUpsert] ∧ (handle_flush_candle true false).2 = false) :=
  C4_flush_order true false

/-- C8 counterexample: a trade event with `ts_ms = 0` is not dropped by the
aggregator: starting from an empty candle state, handling
`{symbol := "AAPL", price := 150, volume := 10, ts_ms := 0}` creates an
OpenCandle at key `("AAPL", 0)` (and the request is acknowledged 204),
whereas the claim says no OpenCandle is created or modified. -/
theorem C8_counterexample_ts_zero_not_dropped :
    (handle_pubsub_trade (fun _ => none)
        ⟨"AAPL", 150, 10, 0⟩).1 ("AAPL", 0)
      = some { open_ := 150, high := 150, low := 150, close := 150
               volume := 10, last_update_ms := 0 } ∧
    (handle_pubsub_trade (fun _ => none) ⟨"AAPL", 150, 10, 0⟩).2 = 204 := by
  have h0 : minute_bucket_ms 0 = 0 := by decide
  constructor
  · simp [handle_pubsub_trade, h0, upsertCandle]
  · rfl

/-- C8 amended: a trade event whose `ts_ms` is 0 is aggregated like any
other trade — it is applied by `LUA_UPSERT_CANDLE` to the key
`(symbol, 0)` (minute bucket 0) — and the request is acknowledged
with 204. -/
theorem C8_ts_zero_aggregated (st : CandleState) (ev : QuoteTradeEvent)
    (h : ev.ts_ms = 0) :
    (handle_pubsub_trade st ev).1 (ev.instrument_symbol, 0)
        = some (upsertCandle (st (ev.instrument_symbol, 0)) ev.price ev.volume 0)
      ∧ (handle_pubsub_trade st ev).2 = 204 := by
  have h0 : minute_bucket_ms 0 = 0 := by decide
  constructor
  · simp [handle_pubsub_trade, h, h0]
  · rfl

/-- C8 witness: the amended statement at the concrete dropped-claim input
(symbol "TSLA", price 200, volume 5, `ts_ms = 0`) over the empty state. -/
theorem C8_ts_zero_aggregated_witness :
    (handle_pubsub_trade (fun _ => none) ⟨"TSLA", 200, 5, 0⟩).1 ("TSLA", 0)
        = some (upsertCandle ((fun _ => none) ("TSLA", (0:ℤ))) 200 5 0)
      ∧ (handle_pubsub_trade (fun _ => none) ⟨"TSLA", 200, 5, 0⟩).2 = 204 :=
  C8_ts_zero_aggregated (fun _ => none) ⟨"TSLA", 200, 5, 0⟩ rfl

/-- C5: the candle branch invokes the push channels exactly when
`|change_pct| ≥ min_change_pct_to_alert` (equality included) and no
`(candle_1m, symbol)` cooldown is set; the fused branch exactly when
`severity ≥ min_fused_severity_to_alert` (equality included) and no
`(fused_event, symbol)` cooldown is set; in each branch a cooldown is set
iff the alert was attempted and at least one channel reported success. -/
theorem C5_alert_gate_thresholds (pct thr : ℚ) (sev minSev : ℤ)
    (cd tg ln : Bool) :
    ((candle_alert_branch pct thr cd tg ln).1 = true ↔ thr ≤ |pct| ∧ cd = false)
      ∧ ((candle_alert_branch pct thr cd tg ln).2 = true ↔
          thr ≤ |pct| ∧ cd = false ∧ (tg || ln) = true)
      ∧ ((fused_alert_branch sev minSev cd tg ln).1 = true ↔
          minSev ≤ sev ∧ cd = false)
      ∧ ((fused_alert_branch sev minSev cd tg ln).2 = true ↔
          minSev ≤ sev ∧ cd = false ∧ (tg || ln) = true) := by
  refine ⟨?_, ?_, ?_, ?_⟩
  · by_cases h1 : |pct| < thr
    · simp [candle_alert_branch, h1, not_le.mpr h1]
    · cases cd <;> simp [candle_alert_branch, h1, not_lt.mp h1]
  · by_cases h1 : |pct| < thr
    · simp [candle_alert_branch, h1, not_le.mpr h1]
    · cases cd <;> simp [candle_alert_branch, h1, not_lt.mp h1]
  · by_cases h2 : sev < minSev
    · simp [fused_alert_branch, h2, not_le.mpr h2]
    · cases cd <;> simp [fused_alert_branch, h2, not_lt.mp h2]
  · by_cases h2 : sev < minSev
    · simp [fused_alert_branch, h2, not_le.mpr h2]
    · cases cd <;> simp [fused_alert_branch, h2, not_lt.mp h2]

/-- C5 witness: at the default-style thresholds, a move exactly at the
candle threshold (`pct = −1`, threshold 1) and a severity exactly at the
fused minimum (35) both alert with no cooldown set, and with one channel
succeeding the cooldown is set. -/
theorem C5_alert_gate_thresholds_witness :
    ((candle_alert_branch (-1) 1 false true false).1 = true ↔
        1 ≤ |(-1 : ℚ)| ∧ false = false)
      ∧ ((candle_alert_branch (-1) 1 false true false).2 = true ↔
          1 ≤ |(-1 : ℚ)| ∧ false = false ∧ (true || false) = true)
      ∧ ((fused_alert_branch 35 35 false true false).1 = true ↔
          (35 : ℤ) ≤ 35 ∧ false = false)
      ∧ ((fused_alert_branch 35 35 false true false).2 = true ↔
          (35 : ℤ) ≤ 35 ∧ false = false ∧ (true || false) = true) :=
  C5_alert_gate_thresholds (-1) 1 35 35 false true false

/-- C6 counterexample: when the oracle returns the schema-violating
document `{action := "BUY", probs 30/30/30, no invalidation rules}` the
responder returns that document unchanged, not the fallback the claim
requires (the spec-modelled validating responder would return the
fallback). -/
theorem C6_counterexample_no_validation :
    handle_analyze_result true
        (some ⟨"BUY", 30, 30, 30, [], []⟩) build_fallback_doc
      = ⟨"BUY", 30, 30, 30, [], []⟩
    ∧ conforms_to_contract_spec ⟨"BUY", 30, 30, 30, [], []⟩ = false
    ∧ handle_analyze_spec true
        (some ⟨"BUY", 30, 30, 30, [], []⟩) build_fallback_doc
      = build_fallback_doc
    ∧ (⟨"BUY", 30, 30, 30, [], []⟩ : PlanDoc) ≠ build_fallback_doc := by
  refine ⟨rfl, by decide, by decide, by decide⟩

/-- C6 amended: with the oracle configured, any document the oracle call
returns is passed through without schema validation; the fallback is
returned only when no oracle is configured or the call fails; the
deterministic fallback itself conforms to the contract schema. -/
theorem C6_oracle_passthrough (d fb : PlanDoc) (o : Option PlanDoc) :
    handle_analyze_result true (some d) fb = d
      ∧ handle_analyze_result true none fb = fb
      ∧ handle_analyze_result false o fb = fb
      ∧ conforms_to_contract_spec build_fallback_doc = true :=
  ⟨rfl, rfl, rfl, by decide⟩

/-- C7 counterexample: with the KV store unavailable, `add_news` raises to
its caller instead of completing as a no-op, and `get_recent_news` raises
instead of returning an empty list — both differ from the spec-modelled
never-raise behavior. -/
theorem C7_counterexample_kv_error_raises :
    add_news_call false [] "x" = Except.error ()
      ∧ get_recent_news_call false [] 0 1800 = Except.error ()
      ∧ add_news_call false [] "x" ≠ add_news_spec false [] "x"
      ∧ get_recent_news_call false [] 0 1800
          ≠ get_recent_news_spec false [] 0 1800 := by
  refine ⟨rfl, rfl, ?_, ?_⟩ <;>
    simp [add_news_call, add_news_spec,
      get_recent_news_call, get_recent_news_spec]

/-- C7 amended: when the KV store is unavailable, both `add_news` and
`get_recent_news` propagate the KV error to the caller (so an ingestion
request that appends evidence can fail on a KV error); when it is
available they return the appended list resp. the filtered recent items,
and within `get_recent_news` an entry that fails to decode is skipped
without affecting the rest. -/
theorem C7_kv_error_propagates (l : List String) (p : String)
    (raw : List (Option EvidenceItem)) (now lookback : ℤ) :
    add_news_call false l p = Except.error ()
      ∧ get_recent_news_call false raw now lookback = Except.error ()
      ∧ add_news_call true l p = Except.ok (fusion_append l p)
      ∧ get_recent_news_call true raw now lookback
          = Except.ok (fusion_recent EvidenceItem.ts_unix raw now lookback)
      ∧ (∀ raw' : List (Option EvidenceItem), raw'.length ≤ 50 →
          get_recent_news_call true (none :: raw') now lookback
            = get_recent_news_call true raw' now lookback) := by
  refine ⟨rfl, rfl, rfl, rfl, ?_⟩
  intro raw' hlen
  have h51 : raw'.take 51 = raw' := List.take_of_length_le (by omega)
  have h50 : raw'.take 50 = raw' := List.take_of_length_le hlen
  have hcons : (none :: raw' : List (Option EvidenceItem)).take 51
      = none :: raw'.take 50 := rfl
  simp [get_recent_news_call, fusion_recent, hcons, h50, h51]

/-- C9 counterexample: with four recent news items in the buffer query
result, the published fused event's `evidence.news_items` carries only the
first three, not (up to) five as claimed. -/
theorem C9_counterexample_evidence_three :
    (build_fused "NVDA" 100 102 99 102 5 0
        [⟨"n1", 1⟩, ⟨"n2", 1⟩, ⟨"n3", 1⟩, ⟨"n4", 1⟩] []).news_items.length = 3
      ∧ (([⟨"n1", 1⟩, ⟨"n2", 1⟩, ⟨"n3", 1⟩, ⟨"n4", 1⟩] :
          List EvidenceItem).take 5).length = 4
      ∧ (build_fused "NVDA" 100 102 99 102 5 0
          [⟨"n1", 1⟩, ⟨"n2", 1⟩, ⟨"n3", 1⟩, ⟨"n4", 1⟩] []).news_items
        ≠ ([⟨"n1", 1⟩, ⟨"n2", 1⟩, ⟨"n3", 1⟩, ⟨"n4", 1⟩] :
          List EvidenceItem).take 5 := by
  refine ⟨rfl, rfl, ?_⟩
  intro heq
  have h3 : (build_fused "NVDA" 100 102 99 102 5 0
      [⟨"n1", 1⟩, ⟨"n2", 1⟩, ⟨"n3", 1⟩, ⟨"n4", 1⟩] []).news_items.length = 3 := rfl
  rw [heq] at h3
  simp at h3

/-- C9 amended: every published fused event carries up to 3 news items and
up to 3 social items in its `evidence` lists (each a prefix of the
corresponding buffer query result, hence newest-first), while the
`fusion_context` block carries up to 5 news headlines and up to 3 social
titles. -/
theorem C9_fused_evidence_lists (symbol : String) (o hg lw c v : ℚ) (m : ℤ)
    (recent_news : List EvidenceItem) (recent_social : List SocialItem) :
    (build_fused symbol o hg lw c v m recent_news recent_social).news_items
        = recent_news.take 3
      ∧ (build_fused symbol o hg lw c v m recent_news recent_social).social_signals
        = recent_social.take 3
      ∧ (build_fused symbol o hg lw c v m recent_news recent_social).news_headlines
        = (recent_news.take 5).map EvidenceItem.headline
      ∧ (build_fused symbol o hg lw c v m recent_news recent_social).social_top_signals
        = (recent_social.take 3).map SocialItem.title
      ∧ (build_fused symbol o hg lw c v m recent_news recent_social).news_items
          <+: recent_news
      ∧ (build_fused symbol o hg lw c v m recent_news recent_social).social_signals
          <+: recent_social
      ∧ (build_fused symbol o hg lw c v m recent_news recent_social).news_items.length
          ≤ 3
      ∧ (build_fused symbol o hg lw c v m
          recent_news recent_social).social_signals.length ≤ 3 := by
  refine ⟨rfl, rfl, rfl, rfl, ?_, ?_, ?_, ?_⟩ <;>
    simp [build_fused, List.take_prefix, List.length_take]

/-- C10: for every `candle_1m` message the fusion joiner processes, the
latest-close cache for the candle's symbol is set to the candle's close and
minute bucket — also when `|change_pct| < 0.25` and the candle is dropped —
while other symbols' latest-close entries and all news and social lists are
left unchanged, and a dropped candle publishes nothing. -/
theorem C10_latest_close_always_written (st : FusionState) (symbol : String)
    (o hg lw c v : ℚ) (m now nlb slb : ℤ) :
    (handle_pubsub_candle st symbol o hg lw c v m now nlb slb).1.latest_close symbol
        = some (c, m)
      ∧ (∀ s, s ≠ symbol →
          (handle_pubsub_candle st symbol o hg lw c v m now nlb slb).1.latest_close s
            = st.latest_close s)
      ∧ (handle_pubsub_candle st symbol o hg lw c v m now nlb slb).1.news = st.news
      ∧ (handle_pubsub_candle st symbol o hg lw c v m now nlb slb).1.social = st.social
      ∧ (|candle_change_pct o c| < 1/4 →
          (handle_pubsub_candle st symbol o hg lw c v m now nlb slb).2 = []) := by
  have hstate : (handle_pubsub_candle st symbol o hg lw c v m now nlb slb).1
      = { st with latest_close :=
            fun s => if s = symbol then some (c, m) else st.latest_close s } := by
    unfold handle_pubsub_candle
    split <;> rfl
  refine ⟨?_, ?_, ?_, ?_, ?_⟩
  · rw [hstate]; simp
  · intro s hs; rw [hstate]; simp [hs]
  · rw [hstate]
  · rw [hstate]
  · intro hp
    unfold handle_pubsub_candle
    rw [if_pos hp]

end XXT
